import Mathlib

/-!
Verification development for the data-integrity Merkle-tree system.

The embedded code comes from `src/src/`:
`command_interface.py`, `integrity_checker.py`, `proof_generator.py`,
`anomaly_detector.py`, `dataset_processor.py`, `performance_analyzer.py`,
`validation_suite.py`, `dataset_modifier.py`.

The hash-tree core module `crypto_hash_tree.py` (class
`IntegrityTreeStructure`, with `build_complete_tree`,
`generate_record_hash`, `combine_child_hashes`, and the `TreeVertex`
node class) is imported by every one of those files but is not part of
the source tree available here; where its behaviour is needed it is
modelled from the specification (sections 3, 4.3, 4.4 and 6 of the
spec), and each such definition carries a doc comment saying so.

Python builtins that the sources call (`float` parsing, `%.1f`
formatting, string slicing and splitting, integer `//` and `%`) are
modelled explicitly; the fidelity scope of the float model — exact for
the special values, exact-rational rather than IEEE-754 binary64 for
finite values — is stated where it is defined, and no theorem relies on
finite-float arithmetic agreeing with CPython.  Digests and record
encodings are kept abstract (the theorems quantify over the hash and
combine functions), so nothing below depends on SHA-256 itself.
-/

namespace DataIntegrity

/-! ## Decimal strings

Models of Python decimal rendering (`str(n)` / `f"{n:06d}"`) and of the
digit-reading part of `float()`. -/

/-- Numeric value of an ASCII digit character. -/
def digitVal (c : Char) : Nat := c.toNat - 48

/-- Decimal rendering of a natural number as a character list, exactly the
digit sequence Python's `str` produces for a non-negative `int`. -/
def decChars (n : Nat) : List Char :=
  if n = 0 then ['0'] else ((Nat.digits 10 n).map Nat.digitChar).reverse

/-- Decimal rendering of a natural number as a string. -/
def decStr (n : Nat) : String := ⟨decChars n⟩

/-- Value of a digit string read most-significant first (leading zeros are
harmless). -/
def digitsVal (l : List Char) : Nat := l.foldl (fun a c => 10 * a + digitVal c) 0

/-! ## Path verification (`proof_generator.py` lines 137-158, and the same
loop in `performance_analyzer.py` lines 92-99)

`locate_and_verify_record` recomputes the apex from the terminal hash by
folding over the authentication path and then compares with the stored
apex.  The path entries are `(direction_indicator, sibling_digest)` pairs;
the direction is the literal string compared against `"LEFT"`.  The
combine function (`IntegrityTreeStructure.combine_child_hashes`) is kept
abstract: the fold does not depend on what it is. -/

/-- The recomputation loop of `locate_and_verify_record`: start from the
terminal hash and fold over the path in order, combining on the side named
by the direction indicator. -/
def recompute_apex (combine : String → String → String) (terminal_hash : String)
    (path : List (String × String)) : String :=
  path.foldl
    (fun running step =>
      if step.1 = "LEFT" then combine running step.2 else combine step.2 running)
    terminal_hash

/-- The final verdict of `locate_and_verify_record`: the record is reported
AUTHENTICATED exactly when the recomputed apex equals the stored apex hash. -/
def locate_authenticated (combine : String → String → String) (terminal_hash : String)
    (path : List (String × String)) (stored_apex_hash : String) : Bool :=
  recompute_apex combine terminal_hash path == stored_apex_hash

/-- The fold described by the specification of `Verify` (spec section 4.6),
written as explicit recursion over the path: at each step, if the position
is LEFT the running value goes on the left of the combine, otherwise on the
right; this is the reference against which the implementation fold is
checked. -/
def verify_spec_fold (combine : String → String → String) (running : String) :
    List (String × String) → String
  | [] => running
  | (pos, sibling) :: rest =>
      verify_spec_fold combine
        (if pos = "LEFT" then combine running sibling else combine sibling running) rest

/-! ## Apex comparison (`integrity_checker.py` lines 127-141)

`execute_integrity_check` ends with a straight string comparison of the
stored and the freshly computed apex digests, printing CONFIRMED on
equality and COMPROMISED otherwise; both branches fall off the end of the
function normally (no `raise` appears anywhere in lines 127-141), so the
comparison is modelled as a total function into a two-valued verdict. -/

/-- Outcome reported by the integrity check. -/
inductive IntegrityVerdict where
  | integrity_confirmed : IntegrityVerdict
  | integrity_compromised : IntegrityVerdict
deriving DecidableEq

/-- The comparison at the end of `execute_integrity_check`: CONFIRMED iff the
stored apex digest equals the recomputed one, COMPROMISED otherwise. -/
def execute_integrity_check_verdict (stored_apex_digest current_apex_digest : String) :
    IntegrityVerdict :=
  if stored_apex_digest = current_apex_digest then .integrity_confirmed
  else .integrity_compromised

/-! ## The hash tree

Modelled from the spec: `crypto_hash_tree.py` is not in the source tree.
Spec section 3 gives the node shape (a digest, child ownership absent on
leaves) and section 4.4 the construction: one leaf per record in input
order, then repeated pairwise reduction, the trailing node of an odd level
combined with itself, until a single apex remains.  Records and the digest
pipeline stay abstract: a record type `α`, a leaf-hash function
`hash : α → String` (the composition `Digest ∘ Encode` of sections
4.1-4.2) and a combine function `c : String → String → String`
(section 4.3). -/

/-- A vertex of the tree: a terminal (leaf) vertex carries only its digest
and has no children; an internal vertex owns its two children.  Field names
follow the attribute names used by `command_interface.py`
(`left_child`, `right_child`). -/
inductive TreeVertex where
  | terminal (digest : String) : TreeVertex
  | internal (digest : String) (left_child right_child : TreeVertex) : TreeVertex
deriving DecidableEq, Repr

/-- The digest stored at a vertex. -/
def TreeVertex.digest : TreeVertex → String
  | .terminal d => d
  | .internal d _ _ => d

/-- One pairwise-reduction round (spec section 4.4 step 3), packaged with
the fact that it halves the level size rounding up (used for termination of
the build loop).  Consecutive pairs are combined left-to-right; a trailing
unpaired vertex is combined with itself, its parent owning it as both
children. -/
def pairReduceSub (c : String → String → String) :
    (level : List TreeVertex) → { m : List TreeVertex // m.length = (level.length + 1) / 2 }
  | [] => ⟨[], rfl⟩
  | [v] => ⟨[.internal (c v.digest v.digest) v v], by simp⟩
  | a :: b :: rest =>
      ⟨.internal (c a.digest b.digest) a b :: (pairReduceSub c rest).1, by
        have h := (pairReduceSub c rest).2
        simp only [List.length_cons, h]
        omega⟩

/-- One pairwise-reduction round, as a plain list transformation. -/
def pair_reduce (c : String → String → String) (level : List TreeVertex) : List TreeVertex :=
  (pairReduceSub c level).1

/-- The build loop (spec section 4.4 step 3): reduce level by level until a
single vertex, the apex, remains.  Empty input yields no apex. -/
def build_apex_loop (c : String → String → String) : List TreeVertex → Option TreeVertex
  | [] => none
  | [v] => some v
  | a :: b :: rest => build_apex_loop c (pair_reduce c (a :: b :: rest))
termination_by level => level.length
decreasing_by
  simp only [pair_reduce, (pairReduceSub c (a :: b :: rest)).2, List.length_cons]
  omega

/-- Number of pairwise reduction rounds performed by the build loop on a
level of the given size: zero for a singleton, and one more than the rounds
on the reduced level (of size `(n + 1) / 2`) otherwise.  This mirrors the
recursion of `build_apex_loop` exactly, as a function of the level size
alone (spec section 4.4: the shape depends only on record count and
order). -/
def rounds_of_length : Nat → Nat
  | 0 => 0
  | 1 => 0
  | n + 2 => rounds_of_length ((n + 3) / 2) + 1
decreasing_by omega

/-- Failure mode of the tree builder (spec sections 4.4 and 7). -/
inductive BuildError where
  | EmptyInputError : BuildError
deriving DecidableEq, Repr

/-- What a successful build exposes to its callers: the apex vertex, the
ordered terminal list (`terminal_list`), and the apex digest string
returned to the caller (`apex_hash`).  The peak-memory figure also
returned by `build_complete_tree` is dropped: no claim reads it. -/
structure BuildResult where
  apex_vertex : TreeVertex
  terminal_list : List TreeVertex
  apex_hash : String
deriving DecidableEq, Repr

/-- Modelled from the spec: `IntegrityTreeStructure.build_complete_tree`
(spec section 4.4).  Fails with `EmptyInputError` on an empty record
sequence; otherwise builds one terminal per record in input order via the
leaf-hash function and reduces pairwise to the apex.  The spec retains the
record identifier on each terminal for later path lookup; no settled claim
reads it, so terminals here carry only their digest.  The second `none`
branch is unreachable (the loop always yields an apex on a non-empty
level, proved below as `build_apex_loop_isSome`). -/
def build_complete_tree (hash : α → String) (c : String → String → String)
    (records : List α) : Except BuildError BuildResult :=
  match records with
  | [] => .error .EmptyInputError
  | r :: rs =>
      let leaves := (r :: rs).map (fun x => TreeVertex.terminal (hash x))
      match build_apex_loop c leaves with
      | some apex => .ok ⟨apex, leaves, apex.digest⟩
      | none => .error .EmptyInputError

/-! ## Tree height (`command_interface.py` lines 160-165)

`compute_tree_height` returns `0` for an absent vertex and
`1 + max(height(left_child), height(right_child))` otherwise.  A terminal
vertex has both children absent, so its height is `1 + max 0 0 = 1`; that
base case is folded into the match. -/

/-- Vertex-counting height exactly as `compute_tree_height` computes it: a
terminal vertex has height 1 (both children absent), an internal vertex one
more than the taller child. -/
def compute_tree_height : TreeVertex → Nat
  | .terminal _ => 1
  | .internal _ l r => 1 + max (compute_tree_height l) (compute_tree_height r)

/-! ## Python floats

The versioning code (`determine_next_version` in `command_interface.py`
and the latest-snapshot selection in `integrity_checker.py`,
`proof_generator.py`, `anomaly_detector.py`) runs on Python floats:
`float(str)` parsing, `max`, `+ 0.1`, and `f"{v:.1f}"` formatting.  The
model keeps the special values `inf`, `-inf`, `nan` exactly as CPython
treats them; finite values are carried as exact rationals, NOT as IEEE-754
binary64 doubles, so finite-value arithmetic diverges from CPython where
binary rounding bites (for instance `2 ^ 53 + 0.1` is absorbed to `2 ^ 53`
in CPython but not here).  For that reason no theorem below relies on
finite-value arithmetic agreeing with CPython: the C6 overwrite exhibit
exercises only the special-value semantics, which the model captures
exactly, and the C7 agreement theorem is independent of the parse model,
which all three selectors share.  The parser covers the ASCII grammar:
optional single sign, digits with optional fraction, optional exponent,
and the lowercase special names `inf`, `infinity`, `nan`; CPython extras
(whitespace trimming, underscores, uppercase special names) are outside
the model. -/

/-- A Python float: an exact finite rational or one of the special values. -/
inductive PyFloat where
  | finite (q : ℚ) : PyFloat
  | inf : PyFloat
  | ninf : PyFloat
  | nan : PyFloat
deriving DecidableEq, Repr

/-- Negation of a Python float. -/
def pyNeg : PyFloat → PyFloat
  | .finite q => .finite (-q)
  | .inf => .ninf
  | .ninf => .inf
  | .nan => .nan

/-- Addition of Python floats (used only as `+ 0.1`). -/
def pyAdd : PyFloat → PyFloat → PyFloat
  | .nan, _ => .nan
  | _, .nan => .nan
  | .inf, .ninf => .nan
  | .ninf, .inf => .nan
  | .inf, _ => .inf
  | _, .inf => .inf
  | .ninf, _ => .ninf
  | _, .ninf => .ninf
  | .finite p, .finite q => .finite (p + q)

/-- The strict comparison `x > acc` of Python floats: every comparison
involving `nan` is false, `inf` exceeds everything else, `-inf` exceeds
nothing. -/
def pyGt : PyFloat → PyFloat → Bool
  | .finite p, .finite q => decide (q < p)
  | .inf, .finite _ => true
  | .inf, .ninf => true
  | .finite _, .ninf => true
  | _, _ => false

/-- The folded form of Python `max` over a non-empty list: keep the current
value unless a later item compares strictly greater (so the first of several
maximal items wins, as CPython does). -/
def pyMaxFold (v : PyFloat) (vs : List PyFloat) : PyFloat :=
  vs.foldl (fun acc x => if pyGt x acc then x else acc) v

/-- Exponent-part tail of the float grammar: a non-empty all-digit string,
scaling the mantissa by the signed power of ten. -/
def parseExpDigits (q : ℚ) (neg : Bool) (l : List Char) : Option PyFloat :=
  if l ≠ [] ∧ l.all Char.isDigit then
    some (.finite (if neg then q / 10 ^ digitsVal l else q * 10 ^ digitsVal l))
  else none

/-- After the mantissa, either the end of the string or an exponent marker
with optionally signed digits. -/
def parseExpTail (q : ℚ) : List Char → Option PyFloat
  | [] => some (.finite q)
  | c :: rest =>
    if c = 'e' ∨ c = 'E' then
      match rest with
      | [] => none
      | d :: ds =>
        if d = '-' then parseExpDigits q true ds
        else if d = '+' then parseExpDigits q false ds
        else parseExpDigits q false (d :: ds)
    else none

/-- The unsigned numeric grammar of `float`: integer digits, an optional
fraction after a dot (at least one digit overall), an optional exponent. -/
def parseNumber (l : List Char) : Option PyFloat :=
  let ip := l.takeWhile Char.isDigit
  let r1 := l.dropWhile Char.isDigit
  match r1 with
  | [] => if ip.isEmpty then none else some (.finite (digitsVal ip))
  | c :: r2 =>
    if c = '.' then
      let fp := r2.takeWhile Char.isDigit
      let r3 := r2.dropWhile Char.isDigit
      if ip.isEmpty && fp.isEmpty then none
      else parseExpTail ((digitsVal ip : ℚ) + (digitsVal fp : ℚ) / 10 ^ fp.length) r3
    else if ip.isEmpty then none
    else parseExpTail (digitsVal ip) r1

/-- The unsigned grammar including the special names accepted by CPython. -/
def parseUnsigned (l : List Char) : Option PyFloat :=
  if l = ['i', 'n', 'f'] ∨ l = ['i', 'n', 'f', 'i', 'n', 'i', 't', 'y'] then some .inf
  else if l = ['n', 'a', 'n'] then some .nan
  else parseNumber l

/-- Model of CPython `float(s)`: `none` is a raised `ValueError`. -/
def py_float (s : String) : Option PyFloat :=
  match s.data with
  | [] => none
  | c :: rest =>
    if c = '-' then (parseUnsigned rest).map pyNeg
    else if c = '+' then parseUnsigned rest
    else parseUnsigned (c :: rest)

/-- Round a rational to the nearest integer, ties to the even integer, as
float-to-decimal formatting does. -/
def roundHalfEven (q : ℚ) : ℤ :=
  let f := ⌊q⌋
  let r := q - f
  if r < 1 / 2 then f
  else if 1 / 2 < r then f + 1
  else if f % 2 = 0 then f else f + 1

/-- Model of CPython `f"{v:.1f}"`: one decimal digit, rounding half to
even; special values render by name.  (CPython renders a negative zero as
`-0.0`; this model renders it `0.0` — the value parsed back is the same.) -/
def pyFormat1f : PyFloat → String
  | .inf => "inf"
  | .ninf => "-inf"
  | .nan => "nan"
  | .finite q =>
    let n := roundHalfEven (q * 10)
    (if n < 0 then "-" else "") ++ decStr (n.natAbs / 10) ++ "." ++ decStr (n.natAbs % 10)

/-- Python `s.startswith(p)`. -/
def pyStartswith (s p : String) : Bool := s.data.take p.data.length == p.data

/-- Python `s.endswith(p)`. -/
def pyEndswith (s p : String) : Bool :=
  s.data.drop (s.data.length - p.data.length) == p.data

/-- Python `s[a:-5]`. -/
def pySliceDropLast5 (s : String) (a : Nat) : String :=
  ⟨(s.data.take (s.data.length - 5)).drop a⟩

/-! ## Snapshot versioning (`command_interface.py` lines 144-158 and 120-135)

`determine_next_version` lists the roots directory, keeps the filenames
with the dataset's `<ds>_root_v` lead and the `.json` tail, parses the
slice between them as a float (a `ValueError` skips the file), and returns
`1.0` when none parse, otherwise the maximum plus `0.1`.
`construct_verification_tree` then writes the snapshot to
`<ds>_root_v{version:.1f}.json`. -/

/-- The `version_list` built by `determine_next_version`: parsed versions of
the filenames that match the dataset's snapshot pattern, in listing order. -/
def parsed_version_list (directory_contents : List String) (dataset_identifier : String) :
    List PyFloat :=
  directory_contents.filterMap fun filename =>
    if pyStartswith filename (dataset_identifier ++ "_root_v") && pyEndswith filename ".json"
    then py_float (pySliceDropLast5 filename (dataset_identifier ++ "_root_v").data.length)
    else none

/-- The next snapshot version chosen by `determine_next_version`: `1.0` when
no existing filename parses, otherwise the maximum parsed version plus
`0.1`. -/
def determine_next_version (directory_contents : List String) (dataset_identifier : String) :
    PyFloat :=
  match parsed_version_list directory_contents dataset_identifier with
  | [] => .finite 1
  | v :: vs => pyAdd (pyMaxFold v vs) (.finite (1 / 10))

/-- The snapshot filename `construct_verification_tree` writes:
`f'{dataset_name}_root_v{version_number:.1f}.json'`. -/
def next_root_filename (directory_contents : List String) (dataset_name : String) : String :=
  dataset_name ++ "_root_v" ++
    pyFormat1f (determine_next_version directory_contents dataset_name) ++ ".json"

/-! ## Latest-snapshot selection (`integrity_checker.py` lines 32-63,
`proof_generator.py` lines 72-101, `anomaly_detector.py` lines 70-99)

Each of the three commands filters the roots listing to
`<ds>_root_v*.json`, extracts `filename.split('_root_v')[1].split('.json')[0]`,
parses it as a float (skipping on `ValueError`), and loads the filename
attached to the maximal version (`max(..., key=lambda x: x[0])`, which
keeps the first of equal keys).  The three blocks are embedded separately,
one per module, and proved to agree.  `String.splitOn` has the semantics
of Python `str.split` with a non-empty separator.  The `[1]` index is
written as a match; the missing-index branch yields `none`, which is never
taken for a filename that passed the filter (the separator occurs in it). -/

/-- Latest-snapshot selection of `execute_integrity_check`. -/
def integrity_check_latest_file (directory_contents : List String)
    (dataset_identifier : String) : Option String :=
  let apex_file_collection := directory_contents.filter fun filename =>
    pyStartswith filename (dataset_identifier ++ "_root_v") && pyEndswith filename ".json"
  let version_list := apex_file_collection.filterMap fun filename =>
    match filename.splitOn "_root_v" with
    | _ :: second :: _ =>
        (py_float ((second.splitOn ".json").headD "")).map fun v => (v, filename)
    | _ => none
  match version_list with
  | [] => none
  | p :: ps => some (ps.foldl (fun acc q => if pyGt q.1 acc.1 then q else acc) p).2

/-- Latest-snapshot selection of `locate_and_verify_record`. -/
def locate_latest_file (directory_contents : List String)
    (dataset_identifier : String) : Option String :=
  let apex_file_list := directory_contents.filter fun filename =>
    pyStartswith filename (dataset_identifier ++ "_root_v") && pyEndswith filename ".json"
  let version_mapping := apex_file_list.filterMap fun filename =>
    match filename.splitOn "_root_v" with
    | _ :: second :: _ =>
        (py_float ((second.splitOn ".json").headD "")).map fun v => (v, filename)
    | _ => none
  match version_mapping with
  | [] => none
  | p :: ps => some (ps.foldl (fun acc q => if pyGt q.1 acc.1 then q else acc) p).2

/-- Latest-snapshot selection of `run_tampering_detection`. -/
def tampering_latest_file (directory_contents : List String)
    (dataset_identifier : String) : Option String :=
  let apex_files := directory_contents.filter fun filename =>
    pyStartswith filename (dataset_identifier ++ "_root_v") && pyEndswith filename ".json"
  let version_data := apex_files.filterMap fun filename =>
    match filename.splitOn "_root_v" with
    | _ :: second :: _ =>
        (py_float ((second.splitOn ".json").headD "")).map fun v => (v, filename)
    | _ => none
  match version_data with
  | [] => none
  | p :: ps => some (ps.foldl (fun acc q => if pyGt q.1 acc.1 then q else acc) p).2

/-! ## Dataset processing (`dataset_processor.py`)

`sanitize_and_normalize` normalizes each record in place (lines 87-114:
fill missing fields with defaults, strip text fields, coerce types) and
then deduplicates on the composite key
`(record["reviewerID"], record["asin"], record["unixReviewTime"])` of the
normalized record (lines 115-119), assigns `ReviewID = f"R{index:06d}"` to
the survivors in order (lines 126-133), and returns them with statistics
(lines 143-151).  The per-record normalization is record-local and shares
no state with the deduplication, so records here model already-normalized
records and the composite key reads their fields directly.  Only the
fields the settled claims touch are carried: the three key fields plus one
representative payload field (`reviewText`) showing that distinct records
can share a key.

The progress displays divide by `record_count // 10`,
`record_total // 10` and `unique_record_count // 10` (lines 48, 121, 131);
Python `//` on non-negative ints is `Nat` division and `x % 0` raises
`ZeroDivisionError`, modelled by the explicit zero-divisor checks placed
exactly where the first loop iteration would evaluate the expression (so a
loop that never runs raises nothing). -/

/-- A processed record, restricted to the fields the claims touch. -/
structure ProcRecord where
  reviewerID : String
  asin : String
  unixReviewTime : Int
  reviewText : String
deriving DecidableEq, Repr

/-- The deduplication key of line 116. -/
def composite_key (record : ProcRecord) : String × String × Int :=
  (record.reviewerID, record.asin, record.unixReviewTime)

/-- One iteration of the deduplication loop (lines 115-119): the state is
the `duplicate_tracker` set (as a list of keys) and the
`deduplicated_records` list; a record whose key was already seen is
dropped, otherwise its key is recorded and the record appended. -/
def dedup_step (st : List (String × String × Int) × List ProcRecord)
    (record : ProcRecord) : List (String × String × Int) × List ProcRecord :=
  if composite_key record ∈ st.1 then st
  else (composite_key record :: st.1, st.2 ++ [record])

/-- The `deduplicated_records` list after the loop over all raw records. -/
def deduplicated_records (raw_records : List ProcRecord) : List ProcRecord :=
  (raw_records.foldl dedup_step ([], [])).2

/-- Reference rendering of first-occurrence deduplication: keep the head,
then keep the first occurrences of what remains after dropping later
records with the head's key.  The implementation loop is proved equal to
this. -/
def first_occurrences : List ProcRecord → List ProcRecord
  | [] => []
  | r :: rs =>
      r :: first_occurrences (rs.filter fun s => decide (composite_key s ≠ composite_key r))
termination_by l => l.length
decreasing_by
  simp only [List.length_cons]
  exact Nat.lt_succ_of_le (List.length_filter_le _ rs)

/-- The identifier `f"R{index:06d}"` of line 130: the letter `R` and the
index zero-padded to at least six digits. -/
def review_id_string (index : Nat) : String :=
  "R" ++ ⟨List.replicate (6 - (decChars index).length) '0'⟩ ++ decStr index

/-- The identifier-assignment loop of lines 129-133, returning each
surviving record with its assigned `ReviewID`. -/
def assign_review_ids (records : List ProcRecord) : List (ProcRecord × String) :=
  records.enum.map fun p => (p.2, review_id_string p.1)

/-- The statistics dictionary of lines 143-150, restricted to the four
fields the claims read (`missing_fields_handled` and `save_time` are
dropped). -/
structure ProcessingStatistics where
  total_loaded : Nat
  valid_records : Nat
  duplicates_removed : Nat
  unique_ids_generated : Nat
deriving DecidableEq, Repr

/-- `sanitize_and_normalize` (lines 61-151) over already-normalized
records: raises `ZeroDivisionError` from the sanitizing progress display
when the input is non-empty with fewer than 10 records, deduplicates,
raises from the identifier progress display when the survivors number
between 1 and 9, and otherwise returns the surviving records with their
identifiers and the statistics. -/
def sanitize_and_normalize (raw_records : List ProcRecord) :
    Except String (List (ProcRecord × String) × ProcessingStatistics) :=
  let record_total := raw_records.length
  if record_total ≠ 0 ∧ record_total / 10 = 0 then .error "ZeroDivisionError"
  else
    let dedup := deduplicated_records raw_records
    let unique_record_count := dedup.length
    if unique_record_count ≠ 0 ∧ unique_record_count / 10 = 0 then .error "ZeroDivisionError"
    else .ok (assign_review_ids dedup,
      ⟨record_total, dedup.length, record_total - dedup.length, dedup.length⟩)

/-- The import loop of `load_and_process` (lines 43-50): read lines until
`record_count` of them are taken, evaluating the progress condition
`line_number % (record_count // 10) == 0` on each taken line — which
raises `ZeroDivisionError` whenever `record_count < 10` and at least one
line exists. -/
def import_records_loop (record_count : Nat) :
    List ProcRecord → Nat → List ProcRecord → Except String (List ProcRecord)
  | [], _, acc => .ok acc.reverse
  | line :: rest, line_number, acc =>
    if record_count ≤ line_number then .ok acc.reverse
    else if record_count / 10 = 0 then .error "ZeroDivisionError"
    else import_records_loop record_count rest (line_number + 1) (line :: acc)

/-- `load_and_process` (lines 34-52) over parsed source lines: import up to
`record_count` records, then sanitize; either progress display may raise
`ZeroDivisionError`. -/
def load_and_process (record_count : Nat) (source_lines : List ProcRecord) :
    Except String (List (ProcRecord × String) × ProcessingStatistics) := do
  let imported ← import_records_loop record_count source_lines 0 []
  sanitize_and_normalize imported

/-! ## Apex snapshot metadata (`command_interface.py` lines 126-132)

`construct_verification_tree` persists
`{"timestamp": ..., "root_hash": apex_hash, "record_count": leaf_count,
"dataset": dataset_name, "tree_height": structure_height}` where
`leaf_count = len(hash_tree.terminal_list)` and `structure_height =
compute_tree_height(hash_tree.apex_vertex)`.  The JSON object is modelled
as an ordered key/value list over a two-valued JSON scalar type. -/

/-- A JSON scalar as the snapshot uses them: a string or a number. -/
inductive JsonValue where
  | jstr (s : String) : JsonValue
  | jnum (n : Nat) : JsonValue
deriving DecidableEq, Repr

/-- The `apex_metadata` dictionary written by `construct_verification_tree`
for a successful build. -/
def apex_metadata (timestamp dataset_name : String) (res : BuildResult) :
    List (String × JsonValue) :=
  [("timestamp", .jstr timestamp),
   ("root_hash", .jstr res.apex_hash),
   ("record_count", .jnum res.terminal_list.length),
   ("dataset", .jstr dataset_name),
   ("tree_height", .jnum (compute_tree_height res.apex_vertex))]

/-! ## Lemmas about the build loop -/

/-- An empty reduction round yields an empty level. -/
theorem pair_reduce_nil (c : String → String → String) : pair_reduce c [] = [] := rfl

/-- A singleton level reduces to the self-paired parent. -/
theorem pair_reduce_single (c : String → String → String) (v : TreeVertex) :
    pair_reduce c [v] = [.internal (c v.digest v.digest) v v] := rfl

/-- A level of two or more reduces its leading pair and recurses. -/
theorem pair_reduce_cons (c : String → String → String) (a b : TreeVertex)
    (rest : List TreeVertex) :
    pair_reduce c (a :: b :: rest) =
      .internal (c a.digest b.digest) a b :: pair_reduce c rest := rfl

/-- A reduction round halves the level size, rounding up. -/
theorem pair_reduce_length (c : String → String → String) (level : List TreeVertex) :
    (pair_reduce c level).length = (level.length + 1) / 2 :=
  (pairReduceSub c level).2

/-- The build loop yields an apex on every non-empty level. -/
theorem build_apex_loop_isSome (c : String → String → String) :
    ∀ level : List TreeVertex, level ≠ [] → (build_apex_loop c level).isSome = true
  | [], h => absurd rfl h
  | [v], _ => by simp [build_apex_loop]
  | a :: b :: rest, _ => by
      rw [build_apex_loop]
      refine build_apex_loop_isSome c _ (fun hnil => ?_)
      have hlen := pair_reduce_length c (a :: b :: rest)
      rw [hnil] at hlen
      simp only [List.length_nil, List.length_cons] at hlen
      omega
termination_by level => level.length
decreasing_by
  simp only [pair_reduce_length, List.length_cons]
  omega

/-- A reduction round raises a uniform level height by one. -/
theorem pair_reduce_height (c : String → String → String) (k : Nat) :
    ∀ level : List TreeVertex, (∀ w ∈ level, compute_tree_height w = k) →
      ∀ w ∈ pair_reduce c level, compute_tree_height w = k + 1
  | [], _, w, hw => by simp [pair_reduce_nil] at hw
  | [v], h, w, hw => by
      rw [pair_reduce_single] at hw
      simp only [List.mem_singleton] at hw
      subst hw
      have hv := h v (by simp)
      simp [compute_tree_height, hv]
      omega
  | a :: b :: rest, h, w, hw => by
      rw [pair_reduce_cons] at hw
      rcases List.mem_cons.mp hw with hhd | htl
      · subst hhd
        have ha := h a (by simp)
        have hb := h b (by simp)
        simp [compute_tree_height, ha, hb]
        omega
      · exact pair_reduce_height c k rest (fun x hx => h x (by simp [hx])) w htl

/-- The apex of a level of uniform height `k` has height `k` plus the number
of reduction rounds on that level. -/
theorem build_apex_loop_height (c : String → String → String) :
    ∀ (k : Nat) (level : List TreeVertex) (apex : TreeVertex),
      build_apex_loop c level = some apex →
      (∀ w ∈ level, compute_tree_height w = k) →
      compute_tree_height apex = k + rounds_of_length level.length
  | _, [], _, h, _ => by simp [build_apex_loop] at h
  | k, [v], apex, h, hk => by
      simp only [build_apex_loop, Option.some.injEq] at h
      subst h
      have h1 : ([v] : List TreeVertex).length = 1 := rfl
      rw [h1, rounds_of_length]
      simpa using hk v (by simp)
  | k, a :: b :: rest, apex, h, hk => by
      rw [build_apex_loop] at h
      have hred :=
        build_apex_loop_height c (k + 1) (pair_reduce c (a :: b :: rest)) apex h
          (pair_reduce_height c k _ hk)
      rw [hred, pair_reduce_length]
      have h2 : (a :: b :: rest).length = rest.length + 2 := by simp
      rw [h2, rounds_of_length]
      have h3 : (rest.length + 2 + 1) / 2 = (rest.length + 3) / 2 := by omega
      rw [h3]
      omega
termination_by _ level => level.length
decreasing_by
  simp only [pair_reduce_length, List.length_cons]
  omega

/-- The number of reduction rounds on a level of `n ≥ 1` vertices is the
base-two ceiling logarithm of `n`. -/
theorem rounds_of_length_eq_clog :
    ∀ n : Nat, 1 ≤ n → rounds_of_length n = Nat.clog 2 n
  | 0, h => by omega
  | 1, _ => by rw [rounds_of_length, Nat.clog_one_right]
  | n + 2, _ => by
      rw [rounds_of_length, rounds_of_length_eq_clog ((n + 3) / 2) (by omega)]
      conv_rhs => rw [Nat.clog_of_two_le (by norm_num) (by omega)]
      congr 2
termination_by n => n
decreasing_by omega

/-! ## Claims C1, C2, C5, C7 -/

/-- The implementation fold of `locate_and_verify_record` agrees with the
specification fold of `Verify`. -/
theorem recompute_apex_eq_spec_fold (c : String → String → String) :
    ∀ (path : List (String × String)) (running : String),
      recompute_apex c running path = verify_spec_fold c running path
  | [], _ => rfl
  | (pos, sibling) :: rest, running => by
      rw [verify_spec_fold]
      simp only [recompute_apex, List.foldl_cons]
      exact recompute_apex_eq_spec_fold c rest _

/-- C1: for every leaf digest and every authentication path, the verifier of
`locate_and_verify_record` folds over the path in order from the leaf digest
— combining `(running, sibling)` when the direction is LEFT and
`(sibling, running)` otherwise — and reports the record AUTHENTICATED if and
only if the folded result equals the stored apex digest. -/
theorem verify_authenticated_iff_fold_eq_apex (combine : String → String → String)
    (terminal_hash : String) (path : List (String × String))
    (stored_apex_hash : String) :
    locate_authenticated combine terminal_hash path stored_apex_hash = true ↔
      verify_spec_fold combine terminal_hash path = stored_apex_hash := by
  unfold locate_authenticated
  rw [recompute_apex_eq_spec_fold]
  exact beq_iff_eq

/-- C2: tamper detection is a straight string-equality check — the check
reports integrity CONFIRMED exactly when the stored and rebuilt apex digests
are equal and COMPROMISED exactly otherwise; being a total function into
these two verdicts, it returns a verdict to the caller in both cases rather
than raising. -/
theorem integrity_check_verdict_spec (stored_apex_digest current_apex_digest : String) :
    (execute_integrity_check_verdict stored_apex_digest current_apex_digest =
        .integrity_confirmed ↔ stored_apex_digest = current_apex_digest) ∧
    (execute_integrity_check_verdict stored_apex_digest current_apex_digest =
        .integrity_compromised ↔ stored_apex_digest ≠ current_apex_digest) := by
  unfold execute_integrity_check_verdict
  by_cases h : stored_apex_digest = current_apex_digest <;> simp [h]

/-- C5: the apex result of `build_complete_tree` is a function of the record
content and order alone — any two builds over the same ordered record
sequence (separate tree instances or separate runs) return the same result,
for every leaf-hash and combine function. -/
theorem build_complete_tree_deterministic {α : Type} (hash : α → String)
    (c : String → String → String) (records1 records2 : List α)
    (h : records1 = records2) :
    build_complete_tree hash c records1 = build_complete_tree hash c records2 := by
  rw [h]

/-- Witness for C5 at a concrete two-record sequence. -/
theorem build_complete_tree_deterministic_witness :
    (["r1", "r2"] : List String) = ["r1", "r2"] ∧
    build_complete_tree (fun s : String => s) (fun a b => a ++ b) ["r1", "r2"] =
      build_complete_tree (fun s : String => s) (fun a b => a ++ b) ["r1", "r2"] :=
  ⟨rfl, build_complete_tree_deterministic _ _ _ _ rfl⟩

/-- C7: on identical roots-directory contents the three latest-snapshot
selectors of check-integrity, locate and detect-tampering choose the same
snapshot file, and therefore any loading of the stored apex hash through the
chosen filename agrees as well. -/
theorem latest_snapshot_selectors_agree (directory_contents : List String)
    (dataset_identifier : String) (load_root : String → Option String) :
    integrity_check_latest_file directory_contents dataset_identifier =
        locate_latest_file directory_contents dataset_identifier ∧
    locate_latest_file directory_contents dataset_identifier =
        tampering_latest_file directory_contents dataset_identifier ∧
    (integrity_check_latest_file directory_contents dataset_identifier).bind load_root =
        (tampering_latest_file directory_contents dataset_identifier).bind load_root :=
  ⟨rfl, rfl, rfl⟩

/-! ## Claims C4, C3, C8 -/

/-- C4: `build_complete_tree` fails with `EmptyInputError` exactly on the
empty record sequence; every non-empty sequence succeeds, and a one-record
sequence yields an apex digest equal to that record's leaf digest. -/
theorem build_complete_tree_empty_single {α : Type} (hash : α → String)
    (c : String → String → String) :
    build_complete_tree hash c ([] : List α) = .error .EmptyInputError ∧
    (∀ records : List α, records ≠ [] →
      ∃ res : BuildResult, build_complete_tree hash c records = .ok res) ∧
    (∀ r : α, ∃ res : BuildResult,
      build_complete_tree hash c [r] = .ok res ∧ res.apex_hash = hash r) := by
  refine ⟨rfl, ?_, ?_⟩
  · intro records hne
    cases records with
    | nil => exact absurd rfl hne
    | cons r rs =>
        have hs := build_apex_loop_isSome c
          ((r :: rs).map fun x => TreeVertex.terminal (hash x)) (by simp)
        cases hloop : build_apex_loop c ((r :: rs).map fun x => TreeVertex.terminal (hash x)) with
        | none => rw [hloop] at hs; simp at hs
        | some apex =>
            refine ⟨⟨apex, (r :: rs).map fun x => TreeVertex.terminal (hash x), apex.digest⟩, ?_⟩
            simp only [build_complete_tree]
            rw [hloop]
  · intro r
    refine ⟨⟨.terminal (hash r), [.terminal (hash r)], hash r⟩, ?_, rfl⟩
    simp [build_complete_tree, build_apex_loop, TreeVertex.digest]

/-- Witness for C4: a concrete one-record build succeeds with the record's
leaf digest as apex. -/
theorem build_complete_tree_empty_single_witness :
    (["x"] : List String) ≠ [] ∧
    (∃ res : BuildResult,
      build_complete_tree (fun s : String => s) (fun a _ => a) ["x"] = .ok res) :=
  ⟨by simp,
    (build_complete_tree_empty_single (fun s : String => s) (fun a _ => a)).2.1 ["x"]
      (by simp)⟩

/-- C3 counterexample: a two-record build persists tree height 2, while the
number of reduction rounds — and the claimed `ceil(log2 2)` — is 1. -/
theorem tree_height_two_records_cex :
    (build_complete_tree (fun s : String => s) (fun a _ => a) ["r1", "r2"]).map
        (fun res => compute_tree_height res.apex_vertex) = .ok 2 ∧
    rounds_of_length 2 = 1 ∧
    Nat.clog 2 2 = 1 ∧
    (2 : Nat) ≠ 1 := by
  refine ⟨?_, ?_, ?_, by norm_num⟩
  · simp [build_complete_tree, build_apex_loop, pair_reduce_cons, pair_reduce_nil,
      pair_reduce_single, compute_tree_height, Except.map, TreeVertex.digest]
  · rw [show (2 : Nat) = 0 + 2 from rfl, rounds_of_length]
    norm_num
    rw [show (1 : Nat) = 0 + 1 from rfl, rounds_of_length]
  · rw [Nat.clog_of_two_le (by norm_num) (by norm_num)]
    norm_num [Nat.clog_one_right]

/-- C3 amended: the persisted tree height (`compute_tree_height` over the
apex vertex) equals the number of pairwise reduction rounds plus one; in
particular it is `ceil(log2 n) + 1` for every record count `n ≥ 1` (so
height 2, not 1, for two records). -/
theorem tree_height_eq_rounds_succ {α : Type} (hash : α → String)
    (c : String → String → String) (records : List α) (res : BuildResult)
    (h : build_complete_tree hash c records = .ok res) :
    compute_tree_height res.apex_vertex = rounds_of_length records.length + 1 ∧
    rounds_of_length records.length = Nat.clog 2 records.length := by
  cases records with
  | nil => simp [build_complete_tree] at h
  | cons r rs =>
      simp only [build_complete_tree] at h
      cases hloop : build_apex_loop c ((r :: rs).map fun x => TreeVertex.terminal (hash x)) with
      | none => rw [hloop] at h; simp at h
      | some apex =>
          rw [hloop] at h
          simp only [Except.ok.injEq] at h
          subst h
          have hh := build_apex_loop_height c 1
            ((r :: rs).map fun x => TreeVertex.terminal (hash x)) apex hloop
            (by
              intro w hw
              rcases List.mem_map.mp hw with ⟨x, _, rfl⟩
              rfl)
          constructor
          · simpa [List.length_map, Nat.add_comm] using hh
          · exact rounds_of_length_eq_clog _ (by simp)

/-- Witness for C3 (amended) at a concrete two-record build. -/
theorem tree_height_eq_rounds_succ_witness :
    build_complete_tree (fun s : String => s) (fun a _ => a) ["r1", "r2"] =
      .ok ⟨.internal "r1" (.terminal "r1") (.terminal "r2"),
           [.terminal "r1", .terminal "r2"], "r1"⟩ ∧
    (compute_tree_height (TreeVertex.internal "r1" (.terminal "r1") (.terminal "r2")) =
        rounds_of_length (["r1", "r2"] : List String).length + 1 ∧
      rounds_of_length (["r1", "r2"] : List String).length =
        Nat.clog 2 (["r1", "r2"] : List String).length) := by
  have hb : build_complete_tree (fun s : String => s) (fun a _ => a) ["r1", "r2"] =
      .ok ⟨.internal "r1" (.terminal "r1") (.terminal "r2"),
           [.terminal "r1", .terminal "r2"], "r1"⟩ := by
    simp [build_complete_tree, build_apex_loop, pair_reduce_cons, pair_reduce_nil,
      pair_reduce_single, TreeVertex.digest]
  exact ⟨hb, tree_height_eq_rounds_succ (fun s : String => s) (fun a _ => a) _ _ hb⟩

/-- C8: the persisted apex snapshot has exactly the keys `timestamp`,
`root_hash`, `record_count`, `dataset`, `tree_height` in that order;
`root_hash` carries the apex digest returned by the build and
`record_count` the number of terminal leaves of the built tree (which
equals the record count). -/
theorem apex_metadata_spec {α : Type} (hash : α → String) (c : String → String → String)
    (timestamp dataset_name : String) (records : List α) (res : BuildResult)
    (h : build_complete_tree hash c records = .ok res) :
    (apex_metadata timestamp dataset_name res).map Prod.fst =
        ["timestamp", "root_hash", "record_count", "dataset", "tree_height"] ∧
    (apex_metadata timestamp dataset_name res).lookup "root_hash" =
        some (.jstr res.apex_hash) ∧
    (apex_metadata timestamp dataset_name res).lookup "record_count" =
        some (.jnum res.terminal_list.length) ∧
    res.terminal_list.length = records.length := by
  refine ⟨rfl, rfl, rfl, ?_⟩
  cases records with
  | nil => simp [build_complete_tree] at h
  | cons r rs =>
      simp only [build_complete_tree] at h
      cases hloop : build_apex_loop c ((r :: rs).map fun x => TreeVertex.terminal (hash x)) with
      | none => rw [hloop] at h; simp at h
      | some apex =>
          rw [hloop] at h
          simp only [Except.ok.injEq] at h
          subst h
          simp [List.length_map]

/-- Witness for C8 at a concrete one-record build. -/
theorem apex_metadata_spec_witness :
    build_complete_tree (fun s : String => s) (fun a _ => a) ["x"] =
      .ok ⟨.terminal "x", [.terminal "x"], "x"⟩ ∧
    ((apex_metadata "t0" "ds" ⟨.terminal "x", [.terminal "x"], "x"⟩).map Prod.fst =
        ["timestamp", "root_hash", "record_count", "dataset", "tree_height"] ∧
      (apex_metadata "t0" "ds" ⟨.terminal "x", [.terminal "x"], "x"⟩).lookup "root_hash" =
        some (.jstr (BuildResult.apex_hash ⟨.terminal "x", [.terminal "x"], "x"⟩)) ∧
      (apex_metadata "t0" "ds" ⟨.terminal "x", [.terminal "x"], "x"⟩).lookup "record_count" =
        some (.jnum (BuildResult.terminal_list ⟨.terminal "x", [.terminal "x"], "x"⟩).length) ∧
      (BuildResult.terminal_list ⟨.terminal "x", [.terminal "x"], "x"⟩).length =
        (["x"] : List String).length) := by
  have hb : build_complete_tree (fun s : String => s) (fun a _ => a) ["x"] =
      .ok ⟨.terminal "x", [.terminal "x"], "x"⟩ := by
    simp [build_complete_tree, build_apex_loop, TreeVertex.digest]
  exact ⟨hb, apex_metadata_spec (fun s : String => s) (fun a _ => a) "t0" "ds" _ _ hb⟩

/-! ## Claims C9, C10 -/

/-- C9: the import-data interface accepts any record count from 1 to
1,500,000, yet `load_and_process` divides by `record_count // 10` in its
progress display — for the accepted count 5 over a source file with one
line it raises `ZeroDivisionError` instead of completing. -/
theorem load_and_process_small_count_zero_division :
    (1 ≤ 5 ∧ 5 ≤ 1500000) ∧
    load_and_process 5 [⟨"reviewer", "asin0", 0, "text"⟩] = .error "ZeroDivisionError" :=
  ⟨by norm_num, rfl⟩

/-- The deduplication fold with an arbitrary tracker state appends the first
occurrences of the not-yet-seen records. -/
theorem foldl_dedup_step :
    ∀ (l : List ProcRecord) (t : List (String × String × Int)) (acc : List ProcRecord),
      (l.foldl dedup_step (t, acc)).2 =
        acc ++ first_occurrences (l.filter fun r => decide (composite_key r ∉ t))
  | [], t, acc => by simp [first_occurrences]
  | r :: rs, t, acc => by
      by_cases hk : composite_key r ∈ t
      · have hstep : dedup_step (t, acc) r = (t, acc) := by simp [dedup_step, hk]
        rw [List.foldl_cons, hstep, foldl_dedup_step rs t acc]
        have hfil : (r :: rs).filter (fun s => decide (composite_key s ∉ t)) =
            rs.filter (fun s => decide (composite_key s ∉ t)) := by
          simp [List.filter_cons, hk]
        rw [hfil]
      · have hstep : dedup_step (t, acc) r = (composite_key r :: t, acc ++ [r]) := by
          simp [dedup_step, hk]
        rw [List.foldl_cons, hstep,
          foldl_dedup_step rs (composite_key r :: t) (acc ++ [r])]
        have hfil : (r :: rs).filter (fun s => decide (composite_key s ∉ t)) =
            r :: rs.filter (fun s => decide (composite_key s ∉ t)) := by
          simp [List.filter_cons, hk]
        rw [hfil, first_occurrences, List.append_assoc, List.singleton_append]
        have hmerge : (rs.filter fun s => decide (composite_key s ∉ t)).filter
            (fun s => decide (composite_key s ≠ composite_key r)) =
            rs.filter fun s => decide (composite_key s ∉ composite_key r :: t) := by
          rw [List.filter_filter]
          apply List.filter_congr
          intro s _
          simp only [List.mem_cons, not_or, Bool.decide_and, decide_not]
        rw [hmerge]

/-- The implementation deduplication keeps exactly the first occurrence of
each composite key, in input order. -/
theorem deduplicated_records_eq_first_occurrences (raw_records : List ProcRecord) :
    deduplicated_records raw_records = first_occurrences raw_records := by
  have h := foldl_dedup_step raw_records [] []
  simpa [deduplicated_records] using h

/-- Digit characters decode back to their digit. -/
theorem digitVal_digitChar : ∀ d : Nat, d < 10 → digitVal (Nat.digitChar d) = d := by
  intro d hd
  interval_cases d <;> decide

/-- Folding the digit decoder over a small-digit list computes the base-ten
value. -/
theorem foldr_digitsVal_of_lt (dl : List Nat) (h : ∀ d ∈ dl, d < 10) :
    dl.foldr (fun d a => 10 * a + digitVal (Nat.digitChar d)) 0 = Nat.ofDigits 10 dl := by
  induction dl with
  | nil => simp [Nat.ofDigits_nil]
  | cons d ds ih =>
      simp only [List.foldr_cons, Nat.ofDigits_cons,
        ih (fun x hx => h x (List.mem_cons_of_mem d hx)),
        digitVal_digitChar d (h d (List.mem_cons_self d ds))]
      omega

/-- Decimal rendering round-trips through the digit-string value. -/
theorem digitsVal_decChars (n : Nat) : digitsVal (decChars n) = n := by
  by_cases h : n = 0
  · subst h; decide
  · unfold decChars digitsVal
    rw [if_neg h, List.foldl_reverse, List.foldr_map]
    rw [foldr_digitsVal_of_lt _ (fun d hd => Nat.digits_lt_base (by norm_num) hd)]
    exact Nat.ofDigits_digits 10 n

/-- Leading zero padding does not change the digit-string value. -/
theorem digitsVal_replicate_zero (k : Nat) (l : List Char) :
    digitsVal (List.replicate k '0' ++ l) = digitsVal l := by
  induction k with
  | zero => simp
  | succ k ih =>
      have h0 : (10 * 0 + digitVal '0') = 0 := by decide
      rw [List.replicate_succ, List.cons_append]
      unfold digitsVal
      rw [List.foldl_cons, h0]
      exact ih

/-- The zero-padded identifiers are pairwise distinct: the identifier
determines the index. -/
theorem review_id_string_inj : Function.Injective review_id_string := by
  intro m n h
  have hdata := congrArg String.data h
  simp only [review_id_string, decStr, String.data_append] at hdata
  have htail :
      (List.replicate (6 - (decChars m).length) '0' ++ decChars m) =
      (List.replicate (6 - (decChars n).length) '0' ++ decChars n) := by
    simpa using hdata
  have hval := congrArg digitsVal htail
  rwa [digitsVal_replicate_zero, digitsVal_replicate_zero, digitsVal_decChars,
    digitsVal_decChars] at hval

/-- The assigned identifiers are exactly the rendered indices in order. -/
theorem assign_review_ids_snd (records : List ProcRecord) :
    (assign_review_ids records).map Prod.snd =
      (List.range records.length).map review_id_string := by
  unfold assign_review_ids
  rw [List.map_map,
    show (Prod.snd ∘ fun p : Nat × ProcRecord => (p.2, review_id_string p.1)) =
      review_id_string ∘ Prod.fst from rfl]
  rw [← List.map_map, List.enum_map_fst]

/-- C10 counterexample: on a one-record list `sanitize_and_normalize` raises
`ZeroDivisionError` from the progress display rather than returning the
deduplicated records and statistics. -/
theorem sanitize_single_record_zero_division_cex :
    sanitize_and_normalize [⟨"reviewer", "asin0", 0, "text"⟩] = .error "ZeroDivisionError" :=
  rfl

/-- C10 amended: whenever `sanitize_and_normalize` runs to completion (the
input is empty, or has at least 10 records of which at least 10 distinct
composite keys survive — otherwise the progress displays divide by zero) it
keeps exactly the first occurrence of each composite key in input order,
assigns identifier `R` plus the zero-padded 6-digit index to each survivor,
the identifiers are pairwise distinct, and the statistics satisfy
`duplicates_removed = total_loaded - valid_records` and
`unique_ids_generated = valid_records`. -/
theorem sanitize_and_normalize_spec (raw_records : List ProcRecord)
    (h : raw_records = [] ∨
      (10 ≤ raw_records.length ∧ 10 ≤ (deduplicated_records raw_records).length)) :
    sanitize_and_normalize raw_records =
      .ok (assign_review_ids (first_occurrences raw_records),
        ⟨raw_records.length, (first_occurrences raw_records).length,
         raw_records.length - (first_occurrences raw_records).length,
         (first_occurrences raw_records).length⟩) ∧
    deduplicated_records raw_records = first_occurrences raw_records ∧
    (assign_review_ids (first_occurrences raw_records)).map Prod.snd =
      (List.range (first_occurrences raw_records).length).map review_id_string ∧
    ((assign_review_ids (first_occurrences raw_records)).map Prod.snd).Nodup ∧
    (∀ pairs stats, sanitize_and_normalize raw_records = .ok (pairs, stats) →
      stats.duplicates_removed = stats.total_loaded - stats.valid_records ∧
      stats.unique_ids_generated = stats.valid_records) := by
  have hded := deduplicated_records_eq_first_occurrences raw_records
  have hok : sanitize_and_normalize raw_records =
      .ok (assign_review_ids (first_occurrences raw_records),
        ⟨raw_records.length, (first_occurrences raw_records).length,
         raw_records.length - (first_occurrences raw_records).length,
         (first_occurrences raw_records).length⟩) := by
    rcases h with rfl | ⟨h10, hd10⟩
    · simp [sanitize_and_normalize, deduplicated_records, assign_review_ids,
        first_occurrences]
    · have hg1 : ¬(raw_records.length ≠ 0 ∧ raw_records.length / 10 = 0) := by omega
      have hg2 : ¬((deduplicated_records raw_records).length ≠ 0 ∧
          (deduplicated_records raw_records).length / 10 = 0) := by omega
      simp only [sanitize_and_normalize, if_neg hg1, if_neg hg2]
      rw [hded]
  refine ⟨hok, hded, assign_review_ids_snd _, ?_, ?_⟩
  · rw [assign_review_ids_snd]
    exact List.Nodup.map review_id_string_inj (List.nodup_range _)
  · intro pairs stats heq
    rw [hok] at heq
    simp only [Except.ok.injEq, Prod.mk.injEq] at heq
    rw [← heq.2]
    exact ⟨rfl, rfl⟩

/-- Witness for C10 (amended) on ten records with distinct keys. -/
theorem sanitize_and_normalize_spec_witness :
    (10 ≤ ([⟨"r", "a", 0, ""⟩, ⟨"r", "a", 1, ""⟩, ⟨"r", "a", 2, ""⟩, ⟨"r", "a", 3, ""⟩,
      ⟨"r", "a", 4, ""⟩, ⟨"r", "a", 5, ""⟩, ⟨"r", "a", 6, ""⟩, ⟨"r", "a", 7, ""⟩,
      ⟨"r", "a", 8, ""⟩, ⟨"r", "a", 9, ""⟩] : List ProcRecord).length ∧
      10 ≤ (deduplicated_records [⟨"r", "a", 0, ""⟩, ⟨"r", "a", 1, ""⟩, ⟨"r", "a", 2, ""⟩,
        ⟨"r", "a", 3, ""⟩, ⟨"r", "a", 4, ""⟩, ⟨"r", "a", 5, ""⟩, ⟨"r", "a", 6, ""⟩,
        ⟨"r", "a", 7, ""⟩, ⟨"r", "a", 8, ""⟩, ⟨"r", "a", 9, ""⟩]).length) ∧
    deduplicated_records [⟨"r", "a", 0, ""⟩, ⟨"r", "a", 1, ""⟩, ⟨"r", "a", 2, ""⟩,
        ⟨"r", "a", 3, ""⟩, ⟨"r", "a", 4, ""⟩, ⟨"r", "a", 5, ""⟩, ⟨"r", "a", 6, ""⟩,
        ⟨"r", "a", 7, ""⟩, ⟨"r", "a", 8, ""⟩, ⟨"r", "a", 9, ""⟩] =
      first_occurrences [⟨"r", "a", 0, ""⟩, ⟨"r", "a", 1, ""⟩, ⟨"r", "a", 2, ""⟩,
        ⟨"r", "a", 3, ""⟩, ⟨"r", "a", 4, ""⟩, ⟨"r", "a", 5, ""⟩, ⟨"r", "a", 6, ""⟩,
        ⟨"r", "a", 7, ""⟩, ⟨"r", "a", 8, ""⟩, ⟨"r", "a", 9, ""⟩] :=
  ⟨⟨by decide, by decide⟩,
    (sanitize_and_normalize_spec _ (Or.inr ⟨by decide, by decide⟩)).2.1⟩

/-! ## Claim C6

The claim — no construct-tree run ever overwrites an existing snapshot,
and the new version is strictly greater than every parseable one — is the
lifecycle invariant of spec section 3 ("never mutated; superseded (not
overwritten) by later snapshots so history remains auditable"), and the
code fails it: `float()` accepts the special names, so a pre-existing
`ds_root_vinf.json` makes `determine_next_version` return `inf`, whose
`%.1f` format rebuilds the identical filename, and `json.dump` overwrites
it.  The theorem below evaluates the embedded code at that input; every
operation on the path (`float("inf")`, `inf + 0.1`, `max`, `f"{inf:.1f}"`)
is special-value semantics, which the model shares with CPython exactly.
CPython has a second, purely finite failure mode the exact-rational model
cannot exhibit: with `ds_root_v9007199254740992.0.json` present (2 ^ 53,
where the binary64 spacing is 2), the `+ 0.1` is absorbed and the
identical filename is likewise rewritten. -/

/-- C6: with a pre-existing snapshot file `ds_root_vinf.json` (whose
version segment `inf` parses as a Python float), the next version is
`inf + 0.1 = inf`, the new filename equals the existing one — so the write
overwrites an existing snapshot — and the new version is not strictly
greater than the existing parseable version. -/
theorem next_root_filename_overwrite_cex :
    determine_next_version ["ds_root_vinf.json"] "ds" = .inf ∧
    next_root_filename ["ds_root_vinf.json"] "ds" = "ds_root_vinf.json" ∧
    "ds_root_vinf.json" ∈ ["ds_root_vinf.json"] ∧
    PyFloat.inf ∈ parsed_version_list ["ds_root_vinf.json"] "ds" ∧
    pyGt (determine_next_version ["ds_root_vinf.json"] "ds") .inf = false := by
  refine ⟨by decide, by decide, by simp, by decide, by decide⟩

